import Mathlib

/-!
Verification of the snake-game core (`src/main.rs`) against its
natural-language specification.

The embedding mirrors the Rust source:
* `LcgRng` models the linear congruential generator (`u32` state as a
  `Nat` reduced modulo `2^32`, `u8` outputs as `Nat` reduced modulo 256).
* `Segment`, `Snake`, `Jungle` model the game structures; `i8` coordinates
  become `Int`, `char` directions stay `Char`, the `heapless::Vec` bounded
  vectors become lists whose insertion operations silently drop the element
  at capacity (the Rust code discards the `Result` of `heapless::Vec::push`).
* The 5x5 `basemap` is a list of rows; an indexed write is fallible
  (`Option`), returning `none` exactly when the Rust indexing would panic
  (`as usize` on a negative `i8` sign-extends to a huge index).
* `Jungle.update`'s `while` loop is fuel-based recursion; the fuel
  `segments.length + 25` dominates the number of iterations because the
  segment list never exceeds 25 entries beyond its initial length.
-/

/-- The linear congruential generator: 32-bit state, seeded once. -/
structure LcgRng where
  state : Nat
deriving Repr, DecidableEq

namespace LcgRng

/-- Rust `fn next(&mut self) -> u8`: `state = state.wrapping_mul(1664525)
.wrapping_add(1013904223)`, returning `self.state as u8`. -/
def next (r : LcgRng) : Nat × LcgRng :=
  let s := (r.state * 1664525 % 2 ^ 32 + 1013904223) % 2 ^ 32
  (s % 256, ⟨s⟩)

/-- Rust `fn next_in_range(&mut self, min: u8, max: u8) -> u8`:
`(self.next() % (max - min + 1)) + min`. -/
def next_in_range (r : LcgRng) (lo hi : Nat) : Nat × LcgRng :=
  let p := r.next
  (p.1 % (hi - lo + 1) + lo, p.2)

end LcgRng

/-- One body cell of the snake: position (`i8` pair), direction of travel
(`char`), and the FIFO queue of pending turns ("checkpoints"),
`heapless::Vec` of capacity 10. -/
structure Segment where
  point : Int × Int
  default_direction : Char
  checkpoints : List (Int × Int × Char)
deriving Repr, DecidableEq

namespace Segment

/-- Rust `fn add_checkpoint`: `self.checkpoints.push((x, y, direction))`.
The `heapless::Vec` has capacity 10 and the `Result` of `push` is
discarded, so at capacity the new checkpoint is silently dropped. -/
def add_checkpoint (s : Segment) (x y : Int) (direction : Char) : Segment :=
  if s.checkpoints.length < 10 then
    { s with checkpoints := s.checkpoints ++ [(x, y, direction)] }
  else s

/-- Rust `fn update(&mut self)`: consume at most the front checkpoint on an exact
position match, then move one cell in the (possibly updated) direction with
toroidal wraparound on the moved axis. -/
def update (s : Segment) : Segment :=
  let s : Segment :=
    match s.checkpoints.head? with
    | some v =>
        if s.point.1 = v.1 ∧ s.point.2 = v.2.1 then
          { s with default_direction := v.2.2, checkpoints := s.checkpoints.tail }
        else s
    | none => s
  let s : Segment :=
    if s.default_direction = 'R' then
      let c := s.point.2 + 1
      { s with point := (s.point.1, if c = 5 then 0 else c) }
    else s
  let s : Segment :=
    if s.default_direction = 'L' then
      let c := s.point.2 - 1
      { s with point := (s.point.1, if c = -1 then 4 else c) }
    else s
  let s : Segment :=
    if s.default_direction = 'U' then
      let rr := s.point.1 - 1
      { s with point := ((if rr = -1 then 4 else rr), s.point.2) }
    else s
  let s : Segment :=
    if s.default_direction = 'D' then
      let rr := s.point.1 + 1
      { s with point := ((if rr = 5 then 0 else rr), s.point.2) }
    else s
  s

end Segment

/-- The snake: a head-first list of segments, `heapless::Vec` capacity 25. -/
structure Snake where
  segments : List Segment
deriving Repr, DecidableEq

namespace Snake

/-- Rust `fn new()`: two segments at (1,1) and (1,0), both moving right. -/
def new : Snake :=
  { segments :=
      [ { point := (1, 1), default_direction := 'R', checkpoints := [] },
        { point := (1, 0), default_direction := 'R', checkpoints := [] } ] }

/-- Rust `fn add_segment`: `self.segments.push(segment)`; the `Result` is
discarded, so at capacity 25 the segment is silently dropped. -/
def add_segment (sn : Snake) (segment : Segment) : Snake :=
  if sn.segments.length < 25 then
    { sn with segments := sn.segments ++ [segment] }
  else sn

end Snake

/-- Rust `fn push_segment_to_back`: place the grown tail segment one cell behind
the last segment (opposite its direction of travel), wrapping at the edge,
and copy the last segment's checkpoint queue. The `'D'` branch reproduces
the source exactly: its wraparound clamp writes the column field
`point.1` instead of the row field `point.0`. -/
def push_segment_to_back (last_segment : Segment) (direction : Char) : Segment :=
  let s : Segment :=
    { point := (last_segment.point.1, last_segment.point.2),
      default_direction := direction,
      checkpoints := last_segment.checkpoints }
  let s : Segment :=
    if direction = 'R' then
      let s : Segment := { s with point := (s.point.1, s.point.2 - 1) }
      if s.point.2 = -1 then { s with point := (s.point.1, 4) } else s
    else s
  let s : Segment :=
    if direction = 'L' then
      let s : Segment := { s with point := (s.point.1, s.point.2 + 1) }
      if s.point.2 = 5 then { s with point := (s.point.1, 0) } else s
    else s
  let s : Segment :=
    if direction = 'D' then
      let s : Segment := { s with point := (s.point.1 - 1, s.point.2) }
      if s.point.1 = -1 then { s with point := (s.point.1, 4) } else s
    else s
  let s : Segment :=
    if direction = 'U' then
      let s : Segment := { s with point := (s.point.1 + 1, s.point.2) }
      if s.point.1 = 5 then { s with point := ((0 : Int), s.point.2) } else s
    else s
  s

/-- Rust `i8 as usize`: sign-extension, so a negative coordinate becomes a
huge index (out of bounds for the 5x5 grid). -/
def i8AsUsize (x : Int) : Nat := (x % 2 ^ 64).toNat

/-- Rust `u8 as i8`: reinterpretation, values ≥ 128 become negative. -/
def u8AsI8 (n : Nat) : Int := if n < 128 then (n : Int) else (n : Int) - 256

/-- Write 1 at row `r`, column `c` of the bitmap; `none` models the Rust
index-out-of-bounds panic. -/
def setCell (m : List (List Nat)) (r c : Nat) : Option (List (List Nat)) :=
  match m.get? r with
  | none => none
  | some row => if c < row.length then some (m.set r (row.set c 1)) else none

/-- The whole game state: snake, display bitmap, last applied direction,
target cell ("nugget", `u8` pair), and the generator. -/
structure Jungle where
  snake : Snake
  basemap : List (List Nat)
  previous_direction : Char
  nugget : Nat × Nat
  rng : LcgRng
deriving Repr, DecidableEq

namespace Jungle

/-- Rust `fn new`: zeroed bitmap, previous direction `'R'`. -/
def new (snake : Snake) (nugget : Nat × Nat) (rng : LcgRng) : Jungle :=
  { snake := snake,
    basemap := List.replicate 5 (List.replicate 5 0),
    previous_direction := 'R',
    nugget := nugget,
    rng := rng }

/-- The checkpoint push at the top of the loop body of `Jungle::update`:
if a direction was supplied, differs from the previously applied one and is
one of the four valid letters, push `(head position, direction)` onto the
current segment's queue. -/
def applyTurn (nd : Option Char) (prev : Char) (head s : Segment) : Segment :=
  match nd with
  | some d =>
      if d ≠ prev ∧ (d = 'R' ∨ d = 'L' ∨ d = 'U' ∨ d = 'D') then
        s.add_checkpoint head.point.1 head.point.2 d
      else s
  | none => s

/-- The "nugget eaten" block of the loop body: when the just-moved segment
`cur2` sits on the nugget, grow the snake with a segment pushed behind the
pre-tick last-segment clone `lc` and relocate the nugget with two draws of
the generator; otherwise leave the state alone. -/
def growthPhase (lc cur2 : Segment) (j1 : Jungle) : Jungle :=
  if cur2.point.1 = u8AsI8 j1.nugget.1 ∧ cur2.point.2 = u8AsI8 j1.nugget.2 then
    let g := push_segment_to_back lc lc.default_direction
    let sn := j1.snake.add_segment g
    let p1 := j1.rng.next_in_range 0 4
    let p2 := p1.2.next_in_range 0 4
    { j1 with snake := sn, nugget := (p1.1, p2.1), rng := p2.2 }
  else j1

/-- Rust `self.basemap[r][c] = 1`, `none` modelling the indexing panic. -/
def writeCell (j : Jungle) (r c : Nat) : Option Jungle :=
  match setCell j.basemap r c with
  | none => none
  | some bm => some { j with basemap := bm }

/-- One iteration of the `while` loop in `Jungle::update`, processing the
segment at `idx`: push the turn checkpoint, advance the segment, run the
growth phase on a nugget hit, finally mark the segment's pre-move cell in
the bitmap (`none` = the indexing panic). -/
def updateStep (head lc : Segment) (nd : Option Char) (idx : Nat) (j : Jungle) :
    Option Jungle :=
  match j.snake.segments.get? idx with
  | none => none
  | some cur0 =>
      let cx := cur0.point.1
      let cy := cur0.point.2
      let cur2 := (applyTurn nd j.previous_direction head cur0).update
      let j1 : Jungle := { j with snake := ⟨j.snake.segments.set idx cur2⟩ }
      let j2 : Jungle := growthPhase lc cur2 j1
      writeCell j2 (i8AsUsize cx) (i8AsUsize cy)

/-- The `while current_segment_index < self.snake.segments.len()` loop,
fuel-based; the guard re-reads the (possibly grown) segment list length
each iteration, exactly as the source does. -/
def updateLoop (head lc : Segment) (nd : Option Char) :
    Nat → Nat → Jungle → Option Jungle
  | 0, idx, j => if idx < j.snake.segments.length then none else some j
  | fuel + 1, idx, j =>
      if idx < j.snake.segments.length then
        match updateStep head lc nd idx j with
        | none => none
        | some j1 => updateLoop head lc nd fuel (idx + 1) j1
      else some j

/-- Rust `fn update(&mut self, new_direction: Option<char>)`: mark the nugget
cell, run the per-segment loop when a head exists, then record the new
direction (when supplied and different) as the previously applied one. -/
def update (j : Jungle) (new_direction : Option Char) : Option Jungle :=
  match setCell j.basemap j.nugget.1 j.nugget.2 with
  | none => none
  | some bm =>
      let j0 : Jungle := { j with basemap := bm }
      let afterLoop : Option Jungle :=
        match j0.snake.segments.head? with
        | some head =>
            match j0.snake.segments.getLast? with
            | some lastSeg =>
                updateLoop head lastSeg new_direction
                  (j0.snake.segments.length + 25) 0 j0
            | none => none
        | none => some j0
      match afterLoop with
      | none => none
      | some j1 =>
          match new_direction with
          | some d =>
              if d ≠ j1.previous_direction then
                some { j1 with previous_direction := d }
              else some j1
          | none => some j1

end Jungle

/-- Read the bitmap cell at row `r`, column `c`. -/
def getCell (m : List (List Nat)) (r c : Nat) : Option Nat :=
  (m.get? r).bind (fun row => row.get? c)

/-- A single segment at (1,1) moving right with no pending checkpoints. -/
def oneSeg : Segment :=
  { point := (1, 1), default_direction := 'R', checkpoints := [] }

/-- A one-segment jungle whose nugget (3,3) is away from the snake's path. -/
def oneSegJungle : Jungle :=
  { snake := ⟨[oneSeg]⟩,
    basemap := List.replicate 5 (List.replicate 5 0),
    previous_direction := 'R',
    nugget := (3, 3),
    rng := ⟨0⟩ }

/-- The result of one `updateStep` on `oneSegJungle`: the segment has moved
to (1,2) while the bitmap was marked at the pre-move cell (1,1). -/
def oneSegStepResult : Jungle :=
  { snake := ⟨[{ point := (1, 2), default_direction := 'R', checkpoints := [] }]⟩,
    basemap := [[0, 0, 0, 0, 0], [0, 1, 0, 0, 0], [0, 0, 0, 0, 0],
                [0, 0, 0, 0, 0], [0, 0, 0, 0, 0]],
    previous_direction := 'R',
    nugget := (3, 3),
    rng := ⟨0⟩ }

/-- A jungle with an empty snake. -/
def emptySnakeJungle : Jungle :=
  { snake := ⟨[]⟩,
    basemap := List.replicate 5 (List.replicate 5 0),
    previous_direction := 'R',
    nugget := (3, 3),
    rng := ⟨0⟩ }

/-- A segment whose checkpoint queue is at its capacity of 10. -/
def fullSeg : Segment :=
  { point := (1, 1), default_direction := 'R',
    checkpoints := List.replicate 10 ((2 : Int), (2 : Int), 'U') }

/-- A snake whose segment list is at its capacity of 25. -/
def fullSnake : Snake :=
  ⟨List.replicate 25 oneSeg⟩

/-- Loop entry state of the growth scenario: one segment at (1,1) moving
right, nugget at (1,2) already marked in the bitmap (the marking happens
before the loop starts). -/
def growStart : Jungle :=
  { snake := ⟨[oneSeg]⟩,
    basemap := [[0, 0, 0, 0, 0], [0, 0, 1, 0, 0], [0, 0, 0, 0, 0],
                [0, 0, 0, 0, 0], [0, 0, 0, 0, 0]],
    previous_direction := 'R',
    nugget := (1, 2),
    rng := ⟨0⟩ }

/-- State after `updateStep` 0 on `growStart`: the segment ate the nugget at
(1,2), a tail segment was appended at (1,0), the nugget was relocated to
(0,0) by the generator, and the pre-move cell (1,1) was marked. -/
def growStepResult : Jungle :=
  { snake := ⟨[{ point := (1, 2), default_direction := 'R', checkpoints := [] },
               { point := (1, 0), default_direction := 'R', checkpoints := [] }]⟩,
    basemap := [[0, 0, 0, 0, 0], [0, 1, 1, 0, 0], [0, 0, 0, 0, 0],
                [0, 0, 0, 0, 0], [0, 0, 0, 0, 0]],
    previous_direction := 'R',
    nugget := (0, 0),
    rng := ⟨1196435762⟩ }

/-- Final state of the growth scenario's loop: the appended tail segment was
itself advanced from (1,0) to (1,1) within the same tick, and its pre-move
cell (1,0) was marked. -/
def growLoopResult : Jungle :=
  { snake := ⟨[{ point := (1, 2), default_direction := 'R', checkpoints := [] },
               { point := (1, 1), default_direction := 'R', checkpoints := [] }]⟩,
    basemap := [[0, 0, 0, 0, 0], [1, 1, 1, 0, 0], [0, 0, 0, 0, 0],
                [0, 0, 0, 0, 0], [0, 0, 0, 0, 0]],
    previous_direction := 'R',
    nugget := (0, 0),
    rng := ⟨1196435762⟩ }

/-! ## Helper lemmas (shared) -/

/-- The function `push_segment_to_back` copies the checkpoint queue of the segment it
grows from, whatever the direction. -/
theorem push_segment_to_back_checkpoints (s : Segment) (d : Char) :
    (push_segment_to_back s d).checkpoints = s.checkpoints := by
  simp [push_segment_to_back, apply_ite Segment.checkpoints]


/-- The growth phase never touches the bitmap. -/
theorem growthPhase_basemap (lc cur2 : Segment) (j1 : Jungle) :
    (Jungle.growthPhase lc cur2 j1).basemap = j1.basemap := by
  unfold Jungle.growthPhase
  split_ifs <;> rfl

/-- The growth phase never touches the previously applied direction. -/
theorem growthPhase_previous_direction (lc cur2 : Segment) (j1 : Jungle) :
    (Jungle.growthPhase lc cur2 j1).previous_direction = j1.previous_direction := by
  unfold Jungle.growthPhase
  split_ifs <;> rfl

/-- The growth phase only ever appends to the segment list. -/
theorem growthPhase_get (lc cur2 : Segment) (j1 : Jungle) (k : Nat)
    (hk : k < j1.snake.segments.length) :
    (Jungle.growthPhase lc cur2 j1).snake.segments.get? k = j1.snake.segments.get? k := by
  unfold Jungle.growthPhase Snake.add_segment
  split_ifs <;> try rfl
  dsimp only
  rw [List.get?_eq_getElem?, List.get?_eq_getElem?, List.getElem?_append_left hk]

/-- If the growth phase made the snake longer, it appended exactly the
segment pushed behind the clone `lc`. -/
theorem growthPhase_grow (lc cur2 : Segment) (j1 : Jungle)
    (h : j1.snake.segments.length < (Jungle.growthPhase lc cur2 j1).snake.segments.length) :
    (Jungle.growthPhase lc cur2 j1).snake.segments
      = j1.snake.segments ++ [push_segment_to_back lc lc.default_direction] := by
  unfold Jungle.growthPhase Snake.add_segment at h ⊢
  split_ifs at h ⊢ <;> simp at h ⊢

/-- Inversion for the bitmap write at the end of the loop body. -/
theorem writeCell_inv (j : Jungle) (r c : Nat) (j1 : Jungle)
    (h : Jungle.writeCell j r c = some j1) :
    setCell j.basemap r c = some j1.basemap ∧ j1.snake = j.snake ∧
      j1.previous_direction = j.previous_direction ∧ j1.nugget = j.nugget ∧
      j1.rng = j.rng := by
  unfold Jungle.writeCell at h
  rcases hsc : setCell j.basemap r c with _ | bm <;> rw [hsc] at h
  · exact absurd h (by simp)
  · simp only [Option.some.injEq] at h
    subst h
    exact ⟨rfl, rfl, rfl, rfl, rfl⟩

/-- Inversion for the loop body: `updateStep` on index `idx` reads the
segment there, advances it in place (possibly after enqueuing the turn
checkpoint), runs the growth phase, and writes the pre-move cell. -/
theorem updateStep_inv (head lc : Segment) (nd : Option Char) (idx : Nat)
    (j j1 : Jungle) (s : Segment)
    (hs : j.snake.segments.get? idx = some s)
    (hstep : Jungle.updateStep head lc nd idx j = some j1) :
    Jungle.writeCell
        (Jungle.growthPhase lc ((Jungle.applyTurn nd j.previous_direction head s).update)
          { j with snake := ⟨j.snake.segments.set idx
              ((Jungle.applyTurn nd j.previous_direction head s).update)⟩ })
        (i8AsUsize s.point.1) (i8AsUsize s.point.2) = some j1 := by
  unfold Jungle.updateStep at hstep
  rw [hs] at hstep
  exact hstep


/-- The loop body marks exactly the processed segment's pre-move cell. -/
theorem updateStep_basemap (head lc : Segment) (nd : Option Char) (idx : Nat)
    (j j1 : Jungle) (s : Segment)
    (hs : j.snake.segments.get? idx = some s)
    (hstep : Jungle.updateStep head lc nd idx j = some j1) :
    setCell j.basemap (i8AsUsize s.point.1) (i8AsUsize s.point.2) = some j1.basemap := by
  have hw := updateStep_inv head lc nd idx j j1 s hs hstep
  obtain ⟨hcell, -, -, -, -⟩ := writeCell_inv _ _ _ _ hw
  rw [growthPhase_basemap] at hcell
  exact hcell

/-- The loop body replaces the processed segment by its advanced version
(checkpoint push, then `Segment.update`). -/
theorem updateStep_get (head lc : Segment) (nd : Option Char) (idx : Nat)
    (j j1 : Jungle) (s : Segment)
    (hs : j.snake.segments.get? idx = some s)
    (hstep : Jungle.updateStep head lc nd idx j = some j1) :
    j1.snake.segments.get? idx
      = some ((Jungle.applyTurn nd j.previous_direction head s).update) := by
  have hidx : idx < j.snake.segments.length := by
    rw [List.get?_eq_getElem?] at hs
    exact (List.getElem?_eq_some.mp hs).1
  have hw := updateStep_inv head lc nd idx j j1 s hs hstep
  obtain ⟨-, hsnake, -, -, -⟩ := writeCell_inv _ _ _ _ hw
  rw [hsnake]
  rw [growthPhase_get _ _ _ _ (by simpa using hidx)]
  dsimp only
  rw [List.get?_eq_getElem?]
  exact List.getElem?_set_eq_of_lt _ hidx

/-- An invalid direction letter never enqueues a checkpoint. -/
theorem applyTurn_invalid (d : Char) (prev : Char) (head s : Segment)
    (hd : ¬(d = 'R' ∨ d = 'L' ∨ d = 'U' ∨ d = 'D')) :
    Jungle.applyTurn (some d) prev head s = s := by
  unfold Jungle.applyTurn
  dsimp only
  rw [if_neg (fun hcontra => hd hcontra.2)]

/-- With an invalid direction letter the loop body behaves exactly as with
no input at all. -/
theorem updateStep_invalid (head lc : Segment) (d : Char) (idx : Nat) (j : Jungle)
    (hd : ¬(d = 'R' ∨ d = 'L' ∨ d = 'U' ∨ d = 'D')) :
    Jungle.updateStep head lc (some d) idx j = Jungle.updateStep head lc none idx j := by
  unfold Jungle.updateStep
  rcases hs : j.snake.segments.get? idx with _ | s
  · rfl
  · dsimp only
    rw [applyTurn_invalid _ _ _ _ hd]
    rfl

/-- With an invalid direction letter the whole loop behaves exactly as with
no input at all. -/
theorem updateLoop_invalid (head lc : Segment) (d : Char)
    (hd : ¬(d = 'R' ∨ d = 'L' ∨ d = 'U' ∨ d = 'D')) :
    ∀ (fuel idx : Nat) (j : Jungle),
      Jungle.updateLoop head lc (some d) fuel idx j
        = Jungle.updateLoop head lc none fuel idx j := by
  intro fuel
  induction fuel with
  | zero => intro idx j; rfl
  | succ n ih =>
      intro idx j
      unfold Jungle.updateLoop
      split
      · rw [updateStep_invalid _ _ _ _ _ hd]
        rcases Jungle.updateStep head lc none idx j with _ | jmid
        · rfl
        · exact ih (idx + 1) jmid
      · rfl

/-! ## Claims -/

/-- C3: the growth-position computation is claimed to wrap the shifted axis
so both coordinates of the returned segment lie in [0,4]. The code violates
this: for a last segment on row 0 travelling Down, the 'D' branch decrements
the row to -1 and then its wraparound clamp writes the *column* field, so
the result is (-1, 4) with a row coordinate outside [0,4]. -/
theorem C3_push_segment_to_back_down_clamps_column :
    (push_segment_to_back
        { point := (0, 0), default_direction := 'D', checkpoints := [] } 'D').point
        = (-1, 4) ∧
    ¬ (0 ≤ (push_segment_to_back
        { point := (0, 0), default_direction := 'D', checkpoints := [] } 'D').point.1) := by
  decide

/-- C4 counterexample: insertion at capacity does not abort; it is a total
operation that silently drops the element and returns the structure
unchanged (the Rust code discards the `Result` of `heapless::Vec::push`). -/
theorem C4_counterexample :
    (fullSeg.checkpoints.length = 10 ∧ fullSeg.add_checkpoint 2 2 'U' = fullSeg) ∧
    (fullSnake.segments.length = 25 ∧ fullSnake.add_segment oneSeg = fullSnake) := by
  decide

/-- C4 (amended): when the checkpoint queue of a segment (capacity 10) or
the segment list of a snake (capacity 25) is full, the insertion operation
silently fails: the element is dropped and the structure is returned
unchanged; the process does not abort. -/
theorem C4_capacity_insertion_is_noop (s : Segment) (x y : Int) (d : Char)
    (sn : Snake) (g : Segment)
    (h1 : 10 ≤ s.checkpoints.length) (h2 : 25 ≤ sn.segments.length) :
    s.add_checkpoint x y d = s ∧ sn.add_segment g = sn := by
  constructor
  · unfold Segment.add_checkpoint
    rw [if_neg (by omega)]
  · unfold Snake.add_segment
    rw [if_neg (by omega)]

/-- C4 witness: the amended statement at a full segment and a full snake. -/
theorem C4_witness :
    10 ≤ fullSeg.checkpoints.length ∧ 25 ≤ fullSnake.segments.length ∧
    (fullSeg.add_checkpoint 3 3 'L' = fullSeg ∧ fullSnake.add_segment fullSeg = fullSnake) :=
  ⟨by decide, by decide,
    C4_capacity_insertion_is_noop fullSeg 3 3 'L' fullSnake fullSeg (by decide) (by decide)⟩

/-- C5: `Segment.update` on a segment with an empty checkpoint queue moves
it exactly one cell in its direction of travel, with toroidal wraparound
applied on the moved axis: a coordinate incremented past 4 becomes 0 and a
coordinate decremented past 0 becomes 4. -/
theorem C5_segment_update_moves_one_cell (p q : Int) (d : Char)
    (hd : d = 'R' ∨ d = 'L' ∨ d = 'U' ∨ d = 'D')
    (hp : 0 ≤ p ∧ p ≤ 4) (hq : 0 ≤ q ∧ q ≤ 4) :
    Segment.update { point := (p, q), default_direction := d, checkpoints := [] } =
      { point :=
          if d = 'R' then (p, if q = 4 then 0 else q + 1)
          else if d = 'L' then (p, if q = 0 then 4 else q - 1)
          else if d = 'U' then ((if p = 0 then 4 else p - 1), q)
          else ((if p = 4 then 0 else p + 1), q),
        default_direction := d, checkpoints := [] } := by
  obtain ⟨hp0, hp4⟩ := hp
  obtain ⟨hq0, hq4⟩ := hq
  rcases hd with rfl | rfl | rfl | rfl
  · show Segment.mk (p, if q + 1 = 5 then 0 else q + 1) 'R' []
       = Segment.mk (p, if q = 4 then 0 else q + 1) 'R' []
    have h : (if q + 1 = 5 then (0 : Int) else q + 1) = (if q = 4 then 0 else q + 1) := by
      split_ifs <;> omega
    rw [h]
  · show Segment.mk (p, if q - 1 = -1 then 4 else q - 1) 'L' []
       = Segment.mk (p, if q = 0 then 4 else q - 1) 'L' []
    have h : (if q - 1 = -1 then (4 : Int) else q - 1) = (if q = 0 then 4 else q - 1) := by
      split_ifs <;> omega
    rw [h]
  · show Segment.mk ((if p - 1 = -1 then 4 else p - 1), q) 'U' []
       = Segment.mk ((if p = 0 then 4 else p - 1), q) 'U' []
    have h : (if p - 1 = -1 then (4 : Int) else p - 1) = (if p = 0 then 4 else p - 1) := by
      split_ifs <;> omega
    rw [h]
  · show Segment.mk ((if p + 1 = 5 then 0 else p + 1), q) 'D' []
       = Segment.mk ((if p = 4 then 0 else p + 1), q) 'D' []
    have h : (if p + 1 = 5 then (0 : Int) else p + 1) = (if p = 4 then 0 else p + 1) := by
      split_ifs <;> omega
    rw [h]

/-- C5 witness: Scenario B of the spec, a segment at (0,0) moving Up wraps
to (4,0). -/
theorem C5_witness :
    (('U' : Char) = 'R' ∨ ('U' : Char) = 'L' ∨ ('U' : Char) = 'U' ∨ ('U' : Char) = 'D') ∧
    ((0 : Int) ≤ 0 ∧ (0 : Int) ≤ 4) ∧
    Segment.update { point := (0, 0), default_direction := 'U', checkpoints := [] } =
      { point := (4, 0), default_direction := 'U', checkpoints := [] } :=
  ⟨by decide, by decide,
    C5_segment_update_moves_one_cell 0 0 'U' (by decide) (by decide) (by decide)⟩

/-- C8: `next()` advances the 32-bit state by the linear congruential
recurrence `state * 1664525 + 1013904223 (mod 2^32)` and returns the low
8 bits of the new state; `next_in_range(lo, hi)` returns
`lo + (next() mod (hi - lo + 1))`, and for the range (0,4) the result is
always in [0,4]. -/
theorem C8_lcg_recurrence (r : LcgRng) (lo hi : Nat)
    (h1 : lo ≤ hi) (h2 : hi - lo < 255) :
    (r.next).2.state = (r.state * 1664525 + 1013904223) % 2 ^ 32 ∧
    (r.next).1 = (r.next).2.state % 256 ∧
    (r.next_in_range lo hi).1 = lo + (r.next).1 % (hi - lo + 1) ∧
    (r.next_in_range 0 4).1 ≤ 4 := by
  refine ⟨?_, rfl, ?_, ?_⟩
  · show (r.state * 1664525 % 2 ^ 32 + 1013904223) % 2 ^ 32
        = (r.state * 1664525 + 1013904223) % 2 ^ 32
    conv_rhs => rw [Nat.add_mod]
    norm_num
  · show (r.next).1 % (hi - lo + 1) + lo = lo + (r.next).1 % (hi - lo + 1)
    omega
  · show (r.next).1 % (4 - 0 + 1) + 0 ≤ 4
    have : (r.next).1 % 5 < 5 := Nat.mod_lt _ (by omega)
    omega

/-- C8 witness: the recurrence evaluated from state 0 with range (0,4). -/
theorem C8_witness :
    (0 : Nat) ≤ 4 ∧ (4 : Nat) - 0 < 255 ∧
    (((⟨0⟩ : LcgRng).next).2.state = (0 * 1664525 + 1013904223) % 2 ^ 32 ∧
     ((⟨0⟩ : LcgRng).next).1 = ((⟨0⟩ : LcgRng).next).2.state % 256 ∧
     ((⟨0⟩ : LcgRng).next_in_range 0 4).1 = 0 + ((⟨0⟩ : LcgRng).next).1 % (4 - 0 + 1) ∧
     ((⟨0⟩ : LcgRng).next_in_range 0 4).1 ≤ 4) :=
  ⟨by decide, by decide, C8_lcg_recurrence ⟨0⟩ 0 4 (by decide) (by decide)⟩

/-- C6: `Segment.update` changes the direction only when the position
exactly equals the front (oldest) checkpoint's position, in which case that
single front checkpoint's direction is adopted and it alone is removed; at
most one checkpoint is consumed per call, strictly in FIFO order, and no
other transition changes the direction or the queue. -/
theorem C6_checkpoint_fifo_single_consumption (s : Segment) :
    ((Segment.update s).default_direction, (Segment.update s).checkpoints) =
      match s.checkpoints with
      | [] => (s.default_direction, [])
      | c :: rest =>
          if s.point.1 = c.1 ∧ s.point.2 = c.2.1 then (c.2.2, rest)
          else (s.default_direction, c :: rest) := by
  rcases h : s.checkpoints with _ | ⟨c, rest⟩
  · simp [Segment.update, h, apply_ite Segment.default_direction,
      apply_ite Segment.checkpoints]
  · by_cases hm : s.point.1 = c.1 ∧ s.point.2 = c.2.1
    · simp [Segment.update, h, hm, apply_ite Segment.default_direction,
        apply_ite Segment.checkpoints]
    · simp [Segment.update, h, hm, apply_ite Segment.default_direction,
        apply_ite Segment.checkpoints]

/-- C1 counterexample: the claim also asserts that the
previously-applied-direction record is unchanged on an invalid direction,
but the final block of `Jungle::update` overwrites `previous_direction`
with any differing supplied character, valid or not: updating with 'X'
(not one of U/D/L/R) changes the record from 'R' to 'X'. -/
theorem C1_counterexample :
    ¬(('X' : Char) = 'R' ∨ ('X' : Char) = 'L' ∨ ('X' : Char) = 'U' ∨ ('X' : Char) = 'D') ∧
    oneSegJungle.previous_direction = 'R' ∧
    (oneSegJungle.update (some 'X')).map Jungle.previous_direction = some 'X' := by
  decide

/-- C1 (amended): a direction value not in {Up, Down, Left, Right} pushes
no checkpoint and leaves the whole per-segment processing identical to a
tick with no input; however the previously-applied-direction record is
still overwritten with the invalid character whenever it differs from the
record (the final direction-record update does not re-check validity). -/
theorem C1_invalid_direction (j : Jungle) (d : Char)
    (hd : ¬(d = 'R' ∨ d = 'L' ∨ d = 'U' ∨ d = 'D')) :
    j.update (some d) = (j.update none).map (fun j1 =>
      if d ≠ j1.previous_direction then { j1 with previous_direction := d } else j1) := by
  unfold Jungle.update
  rcases hbm : setCell j.basemap j.nugget.1 j.nugget.2 with _ | bm
  · rfl
  · dsimp only
    rcases hhd : j.snake.segments.head? with _ | head
    · dsimp only
      by_cases hpc : d = j.previous_direction
      · simp [hpc]
      · simp [hpc]
    · rcases hlast : j.snake.segments.getLast? with _ | lastSeg
      · rfl
      · dsimp only
        rw [updateLoop_invalid _ _ _ hd]
        rcases hloop : Jungle.updateLoop head lastSeg none (j.snake.segments.length + 25) 0
            { j with basemap := bm } with _ | j1
        · rfl
        · dsimp only
          by_cases hpc : d = j1.previous_direction
          · simp [hpc]
          · simp [hpc]

/-- C1 witness: the amended statement evaluated on a concrete one-segment
jungle with the invalid direction 'X'. -/
theorem C1_witness :
    ¬(('X' : Char) = 'R' ∨ ('X' : Char) = 'L' ∨ ('X' : Char) = 'U' ∨ ('X' : Char) = 'D') ∧
    oneSegJungle.update (some 'X') = (oneSegJungle.update none).map (fun j1 =>
      if ('X' : Char) ≠ j1.previous_direction then { j1 with previous_direction := 'X' }
      else j1) :=
  ⟨by decide, C1_invalid_direction oneSegJungle 'X' (by decide)⟩

/-- C2 counterexample: after a tick of a one-segment snake moving right
from (1,1) (nugget away at (3,3)), the segment's new position is (1,2) but
the bitmap cell (1,2) is still 0, while the pre-move cell (1,1) was set to
1 — the loop marks the cell captured *before* `Segment.update` ran. -/
theorem C2_counterexample :
    (oneSegJungle.update none).map (fun j =>
        (j.snake.segments.map Segment.point, getCell j.basemap 1 2, getCell j.basemap 1 1))
      = some ([(1, 2)], some 0, some 1) := by
  decide

/-- C2 (amended): for every segment processed in the tick, the cell marked
occupied in the grid bitmap is the segment's *pre-move* position, captured
before `Segment.update` moved it this tick. -/
theorem C2_basemap_premove (head lc : Segment) (nd : Option Char) (idx : Nat)
    (j j1 : Jungle) (s : Segment)
    (hs : j.snake.segments.get? idx = some s)
    (hstep : Jungle.updateStep head lc nd idx j = some j1) :
    setCell j.basemap (i8AsUsize s.point.1) (i8AsUsize s.point.2) = some j1.basemap :=
  updateStep_basemap head lc nd idx j j1 s hs hstep

/-- C2 witness: the amended statement on the concrete one-segment jungle. -/
theorem C2_witness :
    oneSegJungle.snake.segments.get? 0 = some oneSeg ∧
    Jungle.updateStep oneSeg oneSeg none 0 oneSegJungle = some oneSegStepResult ∧
    setCell oneSegJungle.basemap (i8AsUsize oneSeg.point.1) (i8AsUsize oneSeg.point.2)
      = some oneSegStepResult.basemap :=
  ⟨by decide, by decide,
    C2_basemap_premove oneSeg oneSeg none 0 oneSegJungle oneSegStepResult oneSeg
      (by decide) (by decide)⟩

/-- C7: whenever a tick's loop body grows the snake, the freshly appended
tail segment carries exactly the checkpoint queue of the pre-tick
last-segment clone it grew from (the queue is copied wholesale by
`push_segment_to_back`). -/
theorem C7_growth_preserves_pending_turns (head lc : Segment) (nd : Option Char)
    (idx : Nat) (j j1 : Jungle) (s : Segment)
    (hs : j.snake.segments.get? idx = some s)
    (hstep : Jungle.updateStep head lc nd idx j = some j1)
    (hgrow : j.snake.segments.length < j1.snake.segments.length) :
    (j1.snake.segments.getLast?).map Segment.checkpoints = some lc.checkpoints := by
  have hw := updateStep_inv head lc nd idx j j1 s hs hstep
  obtain ⟨-, hsnake, -, -, -⟩ := writeCell_inv _ _ _ _ hw
  rw [hsnake] at hgrow ⊢
  rw [growthPhase_grow _ _ _ (by simpa using hgrow)]
  rw [List.getLast?_concat]
  simp [push_segment_to_back_checkpoints]

/-- C7 witness: the growth scenario (segment eats the nugget at (1,2)),
where the grown tail segment inherits the empty queue of the clone. -/
theorem C7_witness :
    growStart.snake.segments.get? 0 = some oneSeg ∧
    Jungle.updateStep oneSeg oneSeg none 0 growStart = some growStepResult ∧
    growStart.snake.segments.length < growStepResult.snake.segments.length ∧
    (growStepResult.snake.segments.getLast?).map Segment.checkpoints
      = some oneSeg.checkpoints :=
  ⟨by decide, by decide, by decide,
    C7_growth_preserves_pending_turns oneSeg oneSeg none 0 growStart growStepResult oneSeg
      (by decide) (by decide) (by decide)⟩

/-- C9 counterexample: with an empty snake the tick still runs the final
direction-record update, so supplying 'U' changes
`previous_direction` from 'R' to 'U' — contradicting the claim that the
record is left unchanged for every input direction. -/
theorem C9_counterexample :
    emptySnakeJungle.snake.segments = [] ∧
    emptySnakeJungle.previous_direction = 'R' ∧
    (emptySnakeJungle.update (some 'U')).map Jungle.previous_direction = some 'U' := by
  decide

/-- C9 (amended): with an empty snake, `Jungle.update` marks the nugget's
cell in the bitmap and leaves the snake, the nugget, the generator and
every other cell unchanged — but the previously-applied-direction record
is still updated to the supplied direction whenever one is supplied that
differs from the record. -/
theorem C9_empty_snake_marks_nugget_only (j : Jungle) (nd : Option Char)
    (bm : List (List Nat))
    (hempty : j.snake.segments = [])
    (hbm : setCell j.basemap j.nugget.1 j.nugget.2 = some bm) :
    j.update nd = some
      { j with
        basemap := bm,
        previous_direction :=
          (match nd with
           | some d => if d ≠ j.previous_direction then d else j.previous_direction
           | none => j.previous_direction) } := by
  unfold Jungle.update
  rw [hbm]
  dsimp only
  rw [hempty]
  simp only [List.head?]
  rcases nd with _ | d
  · rfl
  · dsimp only
    by_cases hpc : d = j.previous_direction
    · simp [hpc]
    · simp [hpc]

/-- C9 witness: the amended statement on the concrete empty-snake jungle
with input 'U'. -/
theorem C9_witness :
    emptySnakeJungle.snake.segments = [] ∧
    setCell emptySnakeJungle.basemap emptySnakeJungle.nugget.1 emptySnakeJungle.nugget.2
      = some [[0, 0, 0, 0, 0], [0, 0, 0, 0, 0], [0, 0, 0, 0, 0],
              [0, 0, 0, 1, 0], [0, 0, 0, 0, 0]] ∧
    emptySnakeJungle.update (some 'U') = some
      { emptySnakeJungle with
        basemap := [[0, 0, 0, 0, 0], [0, 0, 0, 0, 0], [0, 0, 0, 0, 0],
                    [0, 0, 0, 1, 0], [0, 0, 0, 0, 0]],
        previous_direction :=
          if ('U' : Char) ≠ emptySnakeJungle.previous_direction then 'U'
          else emptySnakeJungle.previous_direction } :=
  ⟨by decide, by decide,
    C9_empty_snake_marks_nugget_only emptySnakeJungle (some 'U')
      [[0, 0, 0, 0, 0], [0, 0, 0, 0, 0], [0, 0, 0, 0, 0],
       [0, 0, 0, 1, 0], [0, 0, 0, 0, 0]] (by decide) (by decide)⟩

/-- C10: the loop guard of `Jungle::update` re-reads the segment count, so
every index below the final segment count — including the index of a tail
segment appended mid-iteration by a growth event — is processed by the
loop body within the same tick: the segment found there is advanced by
`Segment.update` (after the checkpoint push) and its pre-move cell is
written into the bitmap. -/
theorem C10_appended_segment_processed_same_tick (head lc : Segment) (nd : Option Char) :
    ∀ (fuel idx : Nat) (j j1 : Jungle),
      Jungle.updateLoop head lc nd fuel idx j = some j1 →
      ∀ k, idx ≤ k → k < j1.snake.segments.length →
      ∃ ja jb s,
        Jungle.updateStep head lc nd k ja = some jb ∧
        Jungle.updateLoop head lc nd (fuel - (k - idx) - 1) (k + 1) jb = some j1 ∧
        ja.snake.segments.get? k = some s ∧
        jb.snake.segments.get? k
          = some ((Jungle.applyTurn nd ja.previous_direction head s).update) ∧
        setCell ja.basemap (i8AsUsize s.point.1) (i8AsUsize s.point.2) = some jb.basemap := by
  intro fuel
  induction fuel with
  | zero =>
      intro idx j j1 hrun k hk1 hk2
      unfold Jungle.updateLoop at hrun
      split at hrun
      · exact absurd hrun (by simp)
      · injection hrun with hrun
        subst hrun
        omega
  | succ n ih =>
      intro idx j j1 hrun k hk1 hk2
      unfold Jungle.updateLoop at hrun
      split at hrun
      · rename_i hlt
        rcases hstepv : Jungle.updateStep head lc nd idx j with _ | jmid <;>
          rw [hstepv] at hrun
        · exact absurd hrun (by simp)
        · dsimp only at hrun
          rcases Nat.eq_or_lt_of_le hk1 with rfl | hklt
          · have hs := List.get?_eq_get hlt
            refine ⟨j, jmid, _, hstepv, ?_, hs,
              updateStep_get head lc nd idx j jmid _ hs hstepv,
              updateStep_basemap head lc nd idx j jmid _ hs hstepv⟩
            have harith : n + 1 - (idx - idx) - 1 = n := by omega
            rw [harith]
            exact hrun
          · obtain ⟨ja, jb, s, h1, h2, h3, h4, h5⟩ := ih (idx + 1) jmid j1 hrun k hklt hk2
            refine ⟨ja, jb, s, h1, ?_, h3, h4, h5⟩
            have harith : n + 1 - (k - idx) - 1 = n - (k - (idx + 1)) - 1 := by omega
            rw [harith]
            exact h2
      · injection hrun with hrun
        subst hrun
        omega

/-- C10 witness: the growth scenario run with the fuel `Jungle.update`
itself uses (1 + 25): the tail segment appended at index 1 during the tick
is processed at index 1 in the same tick. -/
theorem C10_witness :
    Jungle.updateLoop oneSeg oneSeg none 26 0 growStart = some growLoopResult ∧
    (0 : Nat) ≤ 1 ∧ 1 < growLoopResult.snake.segments.length ∧
    (∃ ja jb s,
        Jungle.updateStep oneSeg oneSeg none 1 ja = some jb ∧
        Jungle.updateLoop oneSeg oneSeg none (26 - (1 - 0) - 1) (1 + 1) jb
          = some growLoopResult ∧
        ja.snake.segments.get? 1 = some s ∧
        jb.snake.segments.get? 1
          = some ((Jungle.applyTurn none ja.previous_direction oneSeg s).update) ∧
        setCell ja.basemap (i8AsUsize s.point.1) (i8AsUsize s.point.2) = some jb.basemap) :=
  ⟨by decide, by decide, by decide,
    C10_appended_segment_processed_same_tick oneSeg oneSeg none 26 0 growStart
      growLoopResult (by decide) 1 (by decide) (by decide)⟩
